import Mathlib

/-!
Shallow embedding of the return-box session reconciliation engine of
`app/services/mqtt_service.py` (class `MQTTService`), together with the
slice of the relational model (`app/models/book.py`, `app/models/loan.py`)
touched by finalization, and the unlock HTTP route of
`app/routes/mqtt.py`.

Modelling conventions:
  * Python dicts keyed by `return_box_id` become association lists
    `List (Nat × α)` with dict-style replace-or-append assignment.
  * Timestamps (`now_gmt8()`) are opaque `Int` values (seconds); the only
    arithmetic the code performs on them is the subtraction and the
    comparison `< 5` of the unlock cooldown.
  * Monetary amounts (`Numeric(10,2)` in the schema) are `Int` cents; the
    engine only ever writes the constant `0.00` to them.
  * Each handler also returns the list of finalization invocations it
    makes (`_process_finalized_return` calls, inline or on a spawned
    thread) and a trace of lock/IO atomic actions, mirroring the
    source's statement order, so lock-discipline properties can be
    stated.
-/

namespace LibReturn

/-- Association-list read, mirroring Python `d.get(k)` / `k in d`. -/
def dictGet {α : Type} : List (Nat × α) → Nat → Option α
  | [], _ => none
  | kv :: rest, k => if kv.1 == k then some kv.2 else dictGet rest k

/-- Association-list write, mirroring Python `d[k] = v`: replace the
existing binding or append a new one. -/
def dictSet {α : Type} : List (Nat × α) → Nat → α → List (Nat × α)
  | [], k, v => [(k, v)]
  | kv :: rest, k, v =>
    if kv.1 == k then (k, v) :: rest else kv :: dictSet rest k v

/-- Session status values stored in `session['status']`:
`'scanning' | 'finalized' | 'completed'` (the spec calls them
SCANNING / FINALIZE_PENDING / COMPLETED). -/
inductive Status where
  | scanning
  | finalized
  | completed
  deriving DecidableEq, Repr

/-- One entry of `MQTTService._return_sessions`:
`{'epc_tags': [...], 'status': ..., 'timestamp': ...}`. -/
structure BoxSession where
  epc_tags : List String
  status : Status
  timestamp : Int
  deriving DecidableEq, Repr

/-- The in-memory session map `MQTTService._return_sessions`. -/
abbrev Sessions := List (Nat × BoxSession)

/-- A call to `_process_finalized_return(return_box_id, epc_tags)`. -/
abbrev FinCall := Nat × List String

/-- Atomic actions recorded for lock-discipline analysis: acquiring and
releasing `self._lock`, performing a database round-trip, and handing
work to a separate thread (`threading.Thread(...).start()`). -/
inductive Action where
  | acquire
  | release
  | dbCall
  | spawnThread
  deriving DecidableEq, Repr

/-- Result of a message handler: the new session map, the finalization
calls it made, and its lock/IO action trace. -/
structure HandlerResult where
  sessions : Sessions
  fins : List FinCall
  trace : List Action
  deriving DecidableEq, Repr

/-! ## Relational slice touched by finalization -/

/-- `book_copy` rows (`app/models/book.py`), the columns the engine
reads or writes. -/
structure BookCopy where
  copy_id : Nat
  book_id : Nat
  book_epc : String
  status : String
  deriving DecidableEq, Repr

/-- `loan` rows (`app/models/loan.py`), the columns the engine reads or
writes. -/
structure Loan where
  loan_id : Nat
  copy_id : Nat
  status : String
  return_date : Option Int
  fine_amount : Int
  deriving DecidableEq, Repr

/-- `return_box` rows, the column the engine reads. -/
structure ReturnBox where
  return_box_id : Nat
  deriving DecidableEq, Repr

/-- The relational store as seen through `SessionLocal()`. -/
structure DB where
  copies : List BookCopy
  loans : List Loan
  boxes : List ReturnBox
  deriving DecidableEq, Repr

/-- Database reads and the commit performed by the finalization worker,
recorded in the order the source issues them. -/
inductive DbQuery where
  | copiesByEpc
  | boxById
  | loanByCopy (c : Nat)
  | commit
  deriving DecidableEq, Repr

/-- The filter of `db.query(Loan).filter(Loan.copy_id == c, Loan.status
== 'active')`. -/
def activeLoanPred (c : Nat) (l : Loan) : Bool :=
  l.copy_id == c && l.status == "active"

/-- The mutation applied to a closed loan: `loan.return_date =
return_date; loan.status = 'returned'; loan.fine_amount = 0.00`. -/
def closedLoan (l : Loan) (now : Int) : Loan :=
  { l with return_date := some now, status := "returned", fine_amount := 0 }

/-- Effect of `...filter(copy_id == c, status == 'active').first()`
followed by the in-place mutation: the first matching row is updated,
every other row is untouched. -/
def closeFirstActiveLoan (loans : List Loan) (c : Nat) (now : Int) : List Loan :=
  match loans with
  | [] => []
  | l :: rest =>
    if activeLoanPred c l then closedLoan l now :: rest
    else l :: closeFirstActiveLoan rest c now

/-- `db.query(Loan).filter(copy_id == c, status == 'active').first()`. -/
def findFirstActive (loans : List Loan) (c : Nat) : Option Loan :=
  loans.find? (activeLoanPred c)

/-- `db.query(BookCopy).filter(BookCopy.book_epc.in_(epc_tags)).all()`. -/
def matchedCopies (db : DB) (epc_tags : List String) : List BookCopy :=
  db.copies.filter (fun c => epc_tags.contains c.book_epc)

/-- The loan-closing loop `for book_copy in book_copies: ...` of
`_process_finalized_return`, applied copy by copy in list order. -/
def closeLoansFor (book_copies : List BookCopy) (loans : List Loan) (now : Int) :
    List Loan :=
  book_copies.foldl (fun ls c => closeFirstActiveLoan ls c.copy_id now) loans

/-- `MQTTService._process_finalized_return`: apply a finalized tag
snapshot to the store, returning the committed store and the query/commit
trace in source order. -/
def process_finalized_return (return_box_id : Nat) (epc_tags : List String)
    (now : Int) (db : DB) : DB × List DbQuery :=
  if epc_tags.isEmpty then (db, [])
  else
    let book_copies := matchedCopies db epc_tags
    if book_copies.isEmpty then (db, [DbQuery.copiesByEpc])
    else if (db.boxes.find? (fun b => b.return_box_id == return_box_id)).isNone then
      (db, [DbQuery.copiesByEpc, DbQuery.boxById])
    else
      let copies1 := db.copies.map (fun c =>
        if epc_tags.contains c.book_epc then { c with status := "returned" } else c)
      let loans1 := closeLoansFor book_copies db.loans now
      ({ db with copies := copies1, loans := loans1 },
        [DbQuery.copiesByEpc, DbQuery.boxById]
          ++ book_copies.map (fun c => DbQuery.loanByCopy c.copy_id)
          ++ [DbQuery.commit])

/-! ## Message handlers -/

/-- The fetch-or-create step at the top of the `with self._lock:` block of
`_handle_return_update`: a missing session is created as
`{'epc_tags': [], 'status': 'scanning', 'timestamp': now}`. -/
def fetchOrCreate (ss : Sessions) (box : Nat) (now : Int) : BoxSession × Sessions :=
  match dictGet ss box with
  | some s => (s, ss)
  | none =>
    (⟨[], Status.scanning, now⟩, dictSet ss box ⟨[], Status.scanning, now⟩)

/-- `MQTTService._handle_return_update`, after topic/JSON decoding: fold a
scan snapshot `tags` into the session map.  In the `'finalized'` branch
the source calls `self._process_finalized_return(...)` inline, inside the
`with self._lock:` block, hence the `dbCall` inside the acquire/release
pair of the trace. -/
def handle_return_update (box : Nat) (tags : List String) (now : Int)
    (ss : Sessions) : HandlerResult :=
  let fc := fetchOrCreate ss box now
  let s := fc.1
  let ss1 := fc.2
  if s.status = Status.finalized then
    ⟨dictSet ss1 box ⟨tags, Status.completed, now⟩, [(box, tags)],
      [Action.acquire, Action.dbCall, Action.release]⟩
  else if s.status = Status.completed then
    ⟨dictSet ss1 box ⟨tags, Status.completed, now⟩, [],
      [Action.acquire, Action.release]⟩
  else
    ⟨dictSet ss1 box ⟨tags, Status.scanning, now⟩, [],
      [Action.acquire, Action.release]⟩

/-- `MQTTService._handle_command_message`, after topic decoding: process a
command payload.  For `"CONFIRM RETURN"` on an existing session the
source first overwrites `session['status'] = 'finalized'` and only then
tests `session['epc_tags'] and session['status'] != 'completed'`; the
embedding reproduces that order.  The finalization call in that branch is
started on a separate thread (`spawnThread`). -/
def handle_command_message (box : Nat) (payload : String) (now : Int)
    (ss : Sessions) : HandlerResult :=
  if payload = "CONFIRM RETURN" then
    match dictGet ss box with
    | some s =>
      let s1 : BoxSession := { s with status := Status.finalized }
      let ss1 := dictSet ss box s1
      if s1.epc_tags ≠ [] ∧ s1.status ≠ Status.completed then
        ⟨ss1, [(box, s1.epc_tags)], [Action.acquire, Action.spawnThread, Action.release]⟩
      else
        ⟨ss1, [], [Action.acquire, Action.release]⟩
    | none =>
      ⟨dictSet ss box ⟨[], Status.finalized, now⟩, [],
        [Action.acquire, Action.release]⟩
  else ⟨ss, [], []⟩

/-- `MQTTService.get_return_status`: read a session copy for HTTP
polling; when `epc_tags` is non-empty the book-info enrichment query runs
against the store — inside the `with self._lock:` block in the source,
hence the `dbCall` between acquire and release.  (The title/author join
of the enrichment rows is elided; the matched copies are returned.) -/
def get_return_status (return_box_id : Nat) (ss : Sessions) (db : DB) :
    Option (BoxSession × List BookCopy) × List Action :=
  match dictGet ss return_box_id with
  | none => (none, [Action.acquire, Action.release])
  | some s =>
    if s.epc_tags.isEmpty then
      (some (s, []), [Action.acquire, Action.release])
    else
      (some (s, matchedCopies db s.epc_tags),
        [Action.acquire, Action.dbCall, Action.release])

/-- `MQTTService.clear_return_session`: delete the session entry. -/
def clear_return_session (return_box_id : Nat) (ss : Sessions) : Sessions :=
  ss.filter (fun kv => kv.1 != return_box_id)

/-- Does the trace perform a database round-trip while the lock is held?
`d` is the current lock depth. -/
def dbWhileLocked : List Action → Nat → Bool
  | [], _ => false
  | Action.acquire :: rest, d => dbWhileLocked rest (d + 1)
  | Action.release :: rest, d => dbWhileLocked rest (d - 1)
  | Action.dbCall :: rest, d => decide (0 < d) || dbWhileLocked rest d
  | Action.spawnThread :: rest, d => dbWhileLocked rest d

/-! ## Raw inbound message layer (topic and payload decoding) -/

/-- Decoded JSON values, the shapes `json.loads` can hand back. -/
inductive Json where
  | str (s : String)
  | num (n : Int)
  | boolean (b : Bool)
  | null
  | arr (elems : List Json)
  | obj (fields : List (String × Json))

/-- The payload-shape dispatch of `_handle_return_update`:
`isinstance(data, dict) and "Return" in data` takes `data["Return"]`,
`isinstance(data, list)` takes `data`, anything else is the logged-and-
dropped branch. -/
def extractEpcTags : Json → Option Json
  | Json.obj fields =>
    match fields.find? (fun kv => kv.1 == "Return") with
    | some kv => some kv.2
    | none => none
  | Json.arr elems => some (Json.arr elems)
  | _ => none

/-- Tag strings of a decoded snapshot.  The hardware contract is an array
of tag strings; non-string members are elided here. -/
def jsonTagList : Json → List String
  | Json.arr elems =>
    elems.filterMap (fun j => match j with | Json.str s => some s | _ => none)
  | _ => []

/-- `_handle_return_update` from the raw message: `boxIdOpt` is the
result of `int(topic_clean)` (`none` when `ValueError` is raised),
`payloadOpt` the result of `json.loads` (`none` when `JSONDecodeError` is
raised).  The returned flag is true exactly when the message was dropped
(warning logged, nothing mutated). -/
def handle_return_message (boxIdOpt : Option Nat) (payloadOpt : Option Json)
    (now : Int) (ss : Sessions) : HandlerResult × Bool :=
  match boxIdOpt with
  | none => (⟨ss, [], []⟩, true)
  | some box =>
    match payloadOpt with
    | none => (⟨ss, [], []⟩, true)
    | some j =>
      match extractEpcTags j with
      | none => (⟨ss, [], []⟩, true)
      | some tagsJson => (handle_return_update box (jsonTagList tagsJson) now ss, false)

/-! ## Unlock command dispatch and its HTTP route -/

/-- `MQTTService._unlock_cooldown_seconds`. -/
def unlock_cooldown_seconds : Int := 5

/-- `MQTTService.send_unlock_command`: `times` is
`self._last_unlock_times`, `connected` is `self.client and
self.is_connected`, `publishOk` whether `result.rc ==
mqtt.MQTT_ERR_SUCCESS`.  Returns the new cooldown map and the payloads
handed to `client.publish`. -/
def send_unlock_command (return_box_id : Nat) (now : Int) (connected : Bool)
    (publishOk : Bool) (times : List (Nat × Int)) : List (Nat × Int) × List String :=
  let afterCooldown :=
    if connected then
      if publishOk then (dictSet times return_box_id now, ["UNLOCK"])
      else (times, ["UNLOCK"])
    else (times, [])
  match dictGet times return_box_id with
  | some last =>
    if now - last < unlock_cooldown_seconds then (times, [])
    else afterCooldown
  | none => afterCooldown

/-- Outcome of `POST /api/mqtt/unlock/{return_box_id}`. -/
inductive UnlockResponse where
  | serviceUnavailable
  | ok
  deriving DecidableEq, Repr

/-- `unlock_return_box` in `app/routes/mqtt.py`: a 503 is raised only
when `mqtt_service.is_running()` is false before the send is attempted;
otherwise the send runs and the route answers 200 regardless of the
publish result. -/
def unlock_return_box (return_box_id : Nat) (now : Int) (connected : Bool)
    (publishOk : Bool) (times : List (Nat × Int)) :
    UnlockResponse × List (Nat × Int) × List String :=
  if connected then
    let r := send_unlock_command return_box_id now connected publishOk times
    (UnlockResponse.ok, r.1, r.2)
  else (UnlockResponse.serviceUnavailable, times, [])

/-! ## Basic dictionary lemmas -/

theorem dictGet_dictSet_self {α : Type} (m : List (Nat × α)) (k : Nat) (v : α) :
    dictGet (dictSet m k v) k = some v := by
  induction m with
  | nil => simp [dictGet, dictSet]
  | cons kv rest ih =>
    by_cases h : kv.1 = k
    · simp [dictGet, dictSet, h]
    · simp [dictGet, dictSet, h, ih]

theorem dictGet_dictSet_ne {α : Type} (m : List (Nat × α)) (k k2 : Nat) (v : α)
    (h : k ≠ k2) : dictGet (dictSet m k v) k2 = dictGet m k2 := by
  induction m with
  | nil => simp [dictGet, dictSet, h]
  | cons kv rest ih =>
    by_cases hk : kv.1 = k
    · simp [dictGet, dictSet, hk, h]
    · by_cases h2 : kv.1 = k2
      · simp [dictGet, dictSet, hk, h2, Ne.symm h]
      · simp [dictGet, dictSet, hk, h2, ih]

/-! ## Claim theorems -/

/-- C6: every scan update replaces the session's tag list wholesale with
the payload of that scan, in every session state (including a freshly
created session). -/
theorem C6_snapshot_replacement (ss : Sessions) (box : Nat) (tags : List String)
    (now : Int) :
    (dictGet (handle_return_update box tags now ss).sessions box).map
      BoxSession.epc_tags = some tags := by
  unfold handle_return_update fetchOrCreate
  cases h : dictGet ss box with
  | none => simp [dictGet_dictSet_self]
  | some s =>
    rcases s with ⟨tg, st, ts⟩
    cases st <;> simp [dictGet_dictSet_self]

/-- C1 (code bug evaluation): a session already `'completed'` with tags
`["E1"]` receives a duplicate `CONFIRM RETURN`; the handler overwrites
the status back to `'finalized'` and spawns a second finalization call
with `["E1"]`, because the guard `session['status'] != 'completed'` is
evaluated only after the status has already been overwritten. -/
theorem C1_confirm_after_completed_refinalizes :
    (handle_command_message 7 "CONFIRM RETURN" 1
        [(7, ⟨["E1"], Status.completed, 0⟩)]).fins = [(7, ["E1"])] ∧
    (dictGet (handle_command_message 7 "CONFIRM RETURN" 1
        [(7, ⟨["E1"], Status.completed, 0⟩)]).sessions 7).map BoxSession.status
      = some Status.finalized := by
  constructor <;> rfl

/-- C2 (counterexample): confirm on a `'scanning'` session with non-empty
tags leaves the session in `'finalized'` (FINALIZE_PENDING), not
`'completed'` (COMPLETED) as the claim states. -/
theorem C2_counterexample :
    (dictGet (handle_command_message 1 "CONFIRM RETURN" 5
        [(1, ⟨["E1"], Status.scanning, 0⟩)]).sessions 1).map BoxSession.status
      = some Status.finalized ∧ Status.finalized ≠ Status.completed := by
  constructor
  · rfl
  · intro h
    cases h

/-- C2 (amended): for every session in state `'scanning'` with a
non-empty tag list, a `CONFIRM RETURN` message schedules exactly one
finalization with the current tag list and moves the session to
`'finalized'` (FINALIZE_PENDING), leaving tags and timestamp unchanged. -/
theorem C2_confirm_on_scanning_nonempty (ss : Sessions) (box : Nat)
    (tags : List String) (ts now : Int) (h : tags ≠ []) :
    (handle_command_message box "CONFIRM RETURN" now
        (dictSet ss box ⟨tags, Status.scanning, ts⟩)).fins = [(box, tags)] ∧
    dictGet (handle_command_message box "CONFIRM RETURN" now
        (dictSet ss box ⟨tags, Status.scanning, ts⟩)).sessions box
      = some ⟨tags, Status.finalized, ts⟩ := by
  unfold handle_command_message
  rw [if_pos rfl, dictGet_dictSet_self]
  simp [h, dictGet_dictSet_self]

/-- C2 witness: the amended statement at a concrete input. -/
theorem C2_confirm_on_scanning_nonempty_witness :
    (handle_command_message 1 "CONFIRM RETURN" 5
        (dictSet [] 1 ⟨["E1"], Status.scanning, 0⟩)).fins = [(1, ["E1"])] ∧
    dictGet (handle_command_message 1 "CONFIRM RETURN" 5
        (dictSet [] 1 ⟨["E1"], Status.scanning, 0⟩)).sessions 1
      = some ⟨["E1"], Status.finalized, 0⟩ :=
  C2_confirm_on_scanning_nonempty [] 1 ["E1"] 0 5 (by decide)

/-- C3 (counterexample): for the empty tag set, the sequence
[scan([]), confirm] starting from no session triggers zero finalization
calls, not exactly one — the confirm handler's guard
`session['epc_tags']` is falsy, so nothing is scheduled. -/
theorem C3_counterexample :
    (handle_return_update 1 [] 0 []).fins ++
      (handle_command_message 1 "CONFIRM RETURN" 1
        (handle_return_update 1 [] 0 []).sessions).fins = [] := by
  rfl

/-- C3 (amended): for every non-empty tag set T, starting from no session,
both [scan(T), confirm] and [confirm, scan(T)] result in exactly one
finalization call carrying T. -/
theorem C3_order_independence (box : Nat) (T : List String) (t1 t2 : Int)
    (h : T ≠ []) :
    (handle_return_update box T t1 []).fins ++
      (handle_command_message box "CONFIRM RETURN" t2
        (handle_return_update box T t1 []).sessions).fins = [(box, T)] ∧
    (handle_command_message box "CONFIRM RETURN" t1 []).fins ++
      (handle_return_update box T t2
        (handle_command_message box "CONFIRM RETURN" t1 []).sessions).fins
      = [(box, T)] := by
  constructor
  · have h1 : handle_return_update box T t1 [] =
        ⟨[(box, ⟨T, Status.scanning, t1⟩)], [], [Action.acquire, Action.release]⟩ := by
      unfold handle_return_update fetchOrCreate
      simp [dictGet, dictSet, List.find?]
    rw [h1]
    unfold handle_command_message
    rw [if_pos rfl]
    simp [dictGet, List.find?, h]
  · have h1 : handle_command_message box "CONFIRM RETURN" t1 [] =
        ⟨[(box, ⟨[], Status.finalized, t1⟩)], [], [Action.acquire, Action.release]⟩ := by
      unfold handle_command_message
      rw [if_pos rfl]
      simp [dictGet, dictSet, List.find?]
    rw [h1]
    unfold handle_return_update fetchOrCreate
    simp [dictGet, dictSet, List.find?]

/-- C3 witness: the amended statement at T = ["E1", "E2"]. -/
theorem C3_order_independence_witness :
    (handle_return_update 1 ["E1", "E2"] 0 []).fins ++
      (handle_command_message 1 "CONFIRM RETURN" 1
        (handle_return_update 1 ["E1", "E2"] 0 []).sessions).fins
      = [(1, ["E1", "E2"])] ∧
    (handle_command_message 1 "CONFIRM RETURN" 0 []).fins ++
      (handle_return_update 1 ["E1", "E2"] 1
        (handle_command_message 1 "CONFIRM RETURN" 0 []).sessions).fins
      = [(1, ["E1", "E2"])] :=
  C3_order_independence 1 ["E1", "E2"] 0 1 (by decide)

/-- C5: a confirm for a device with no session, or with a session whose
tag list is empty (in any status), makes the state `'finalized'`
(FINALIZE_PENDING) with no finalization call; a subsequent scan with an
empty tag list then makes exactly one finalization call with the empty
tag set and moves the session to `'completed'`. -/
theorem C5_empty_confirm_first (box : Nat) (ss : Sessions) (st : Status)
    (ts t1 t2 t3 t4 : Int) :
    (handle_command_message box "CONFIRM RETURN" t1 []).fins = [] ∧
    dictGet (handle_command_message box "CONFIRM RETURN" t1 []).sessions box
      = some ⟨[], Status.finalized, t1⟩ ∧
    (handle_return_update box [] t2
        (handle_command_message box "CONFIRM RETURN" t1 []).sessions).fins
      = [(box, [])] ∧
    dictGet (handle_return_update box [] t2
        (handle_command_message box "CONFIRM RETURN" t1 []).sessions).sessions box
      = some ⟨[], Status.completed, t2⟩ ∧
    (handle_command_message box "CONFIRM RETURN" t3
        (dictSet ss box ⟨[], st, ts⟩)).fins = [] ∧
    dictGet (handle_command_message box "CONFIRM RETURN" t3
        (dictSet ss box ⟨[], st, ts⟩)).sessions box
      = some ⟨[], Status.finalized, ts⟩ ∧
    (handle_return_update box [] t4
        (handle_command_message box "CONFIRM RETURN" t3
          (dictSet ss box ⟨[], st, ts⟩)).sessions).fins = [(box, [])] ∧
    dictGet (handle_return_update box [] t4
        (handle_command_message box "CONFIRM RETURN" t3
          (dictSet ss box ⟨[], st, ts⟩)).sessions).sessions box
      = some ⟨[], Status.completed, t4⟩ := by
  have hc1 : handle_command_message box "CONFIRM RETURN" t1 [] =
      ⟨[(box, ⟨[], Status.finalized, t1⟩)], [], [Action.acquire, Action.release]⟩ := by
    unfold handle_command_message
    rw [if_pos rfl]
    simp [dictGet, dictSet]
  have hr1 : handle_return_update box [] t2 [(box, ⟨[], Status.finalized, t1⟩)] =
      ⟨[(box, ⟨[], Status.completed, t2⟩)], [(box, [])],
        [Action.acquire, Action.dbCall, Action.release]⟩ := by
    unfold handle_return_update fetchOrCreate
    simp [dictGet, dictSet]
  have hget : dictGet (dictSet ss box (⟨[], st, ts⟩ : BoxSession)) box
      = some ⟨[], st, ts⟩ := dictGet_dictSet_self ss box _
  have hc2 : handle_command_message box "CONFIRM RETURN" t3 (dictSet ss box ⟨[], st, ts⟩) =
      ⟨dictSet (dictSet ss box ⟨[], st, ts⟩) box ⟨[], Status.finalized, ts⟩, [],
        [Action.acquire, Action.release]⟩ := by
    unfold handle_command_message
    rw [if_pos rfl, hget]
    simp
  have hget2 : dictGet (dictSet (dictSet ss box (⟨[], st, ts⟩ : BoxSession)) box
      (⟨[], Status.finalized, ts⟩ : BoxSession)) box = some ⟨[], Status.finalized, ts⟩ :=
    dictGet_dictSet_self _ box _
  have hr2 : handle_return_update box [] t4
      (dictSet (dictSet ss box ⟨[], st, ts⟩) box ⟨[], Status.finalized, ts⟩) =
      ⟨dictSet (dictSet (dictSet ss box ⟨[], st, ts⟩) box ⟨[], Status.finalized, ts⟩) box
          ⟨[], Status.completed, t4⟩, [(box, [])],
        [Action.acquire, Action.dbCall, Action.release]⟩ := by
    unfold handle_return_update fetchOrCreate
    rw [hget2]
    rfl
  rw [hc1, hr1, hc2, hr2]
  refine ⟨rfl, by simp [dictGet], rfl, by simp [dictGet], rfl, dictGet_dictSet_self _ box _,
    rfl, dictGet_dictSet_self _ box _⟩

/-- C4 (counterexample): a scan snapshot delivered while the session is
`'finalized'` makes the handler run the finalization worker — a database
round-trip — inline inside the `with self._lock:` block, and the polling
read `get_return_status` runs its enrichment query while holding the
lock. -/
theorem C4_counterexample :
    dbWhileLocked (handle_return_update 1 ["E1"] 5
        [(1, ⟨[], Status.finalized, 0⟩)]).trace 0 = true ∧
    dbWhileLocked (get_return_status 1
        [(1, ⟨["E1"], Status.scanning, 0⟩)] ⟨[], [], []⟩).2 0 = true := by
  exact ⟨rfl, rfl⟩

/-- C4 (amended): the confirm handler never performs a database
round-trip under the lock (it hands finalization to a separate thread),
but the scan handler's FINALIZE_PENDING path invokes the finalization
worker inline while the session lock is held, and the polling read's
enrichment query also runs while the lock is held. -/
theorem C4_lock_discipline :
    (∀ (box : Nat) (payload : String) (now : Int) (ss : Sessions),
      dbWhileLocked (handle_command_message box payload now ss).trace 0 = false) ∧
    (∀ (box : Nat) (tags : List String) (now : Int) (ss : Sessions) (s : BoxSession),
      dictGet ss box = some s → s.status = Status.finalized →
      dbWhileLocked (handle_return_update box tags now ss).trace 0 = true) ∧
    (∀ (box : Nat) (ss : Sessions) (db : DB) (s : BoxSession),
      dictGet ss box = some s → s.epc_tags ≠ [] →
      dbWhileLocked (get_return_status box ss db).2 0 = true) := by
  refine ⟨?_, ?_, ?_⟩
  · intro box payload now ss
    unfold handle_command_message
    by_cases hp : payload = "CONFIRM RETURN"
    · rw [if_pos hp]
      cases hg : dictGet ss box with
      | none => rfl
      | some s =>
        dsimp only
        split
        · rfl
        · rfl
    · rw [if_neg hp]
      rfl
  · intro box tags now ss s hg hs
    unfold handle_return_update fetchOrCreate
    rw [hg]
    dsimp only
    rw [if_pos hs]
    rfl
  · intro box ss db s hg hne
    unfold get_return_status
    rw [hg]
    dsimp only
    rw [if_neg (by simp [List.isEmpty_iff, hne])]
    rfl

/-- C4 witness: the amended statement at concrete inputs. -/
theorem C4_lock_discipline_witness :
    dbWhileLocked (handle_command_message 1 "CONFIRM RETURN" 0 []).trace 0 = false ∧
    dbWhileLocked (handle_return_update 1 ["E2"] 5
        [(1, ⟨[], Status.finalized, 0⟩)]).trace 0 = true ∧
    dbWhileLocked (get_return_status 1
        [(1, ⟨["E2"], Status.scanning, 0⟩)] ⟨[], [], []⟩).2 0 = true :=
  ⟨C4_lock_discipline.1 1 "CONFIRM RETURN" 0 [],
   C4_lock_discipline.2.1 1 ["E2"] 5 [(1, ⟨[], Status.finalized, 0⟩)]
     ⟨[], Status.finalized, 0⟩ rfl rfl,
   C4_lock_discipline.2.2 1 [(1, ⟨["E2"], Status.scanning, 0⟩)] ⟨[], [], []⟩
     ⟨["E2"], Status.scanning, 0⟩ rfl (by decide)⟩

/-- C7 (counterexample): with the transport connected but the publish
failing (`result.rc != MQTT_ERR_SUCCESS`), an unlock request outside the
cooldown window attempts the publish, leaves the cooldown record
unchanged — but the route answers ok (HTTP 200), not the
service-unavailable condition the claim states. -/
theorem C7_counterexample :
    (unlock_return_box 1 0 true false []).1 = UnlockResponse.ok ∧
    UnlockResponse.ok ≠ UnlockResponse.serviceUnavailable ∧
    (unlock_return_box 1 0 true false []).2.1 = [] ∧
    (unlock_return_box 1 0 true false []).2.2 = ["UNLOCK"] := by
  refine ⟨rfl, by decide, rfl, rfl⟩

/-- C7 (amended): a `send_unlock_command` within the cooldown window (5
seconds) of the device's last recorded send performs no publish and
leaves the cooldown record unchanged; outside the window, while
connected, it publishes the unlock literal and updates the record to now
exactly when the publish succeeds (a failed publish leaves the record
unchanged and is only logged — the HTTP route reports
service-unavailable only when the transport is disconnected before the
send is attempted, and answers ok otherwise); hence two calls within the
window yield exactly one publish and a third call after the window a
second one. -/
theorem C7_cooldown_suppression :
    (∀ (box : Nat) (now : Int) (c pOk : Bool) (times : List (Nat × Int)) (last : Int),
      dictGet times box = some last → now - last < unlock_cooldown_seconds →
      send_unlock_command box now c pOk times = (times, [])) ∧
    (∀ (box : Nat) (now : Int) (pOk : Bool) (times : List (Nat × Int)),
      (∀ last : Int, dictGet times box = some last → unlock_cooldown_seconds ≤ now - last) →
      send_unlock_command box now true pOk times =
        (if pOk then dictSet times box now else times, ["UNLOCK"])) ∧
    (∀ (box : Nat) (now : Int) (pOk : Bool) (times : List (Nat × Int)),
      unlock_return_box box now false pOk times
        = (UnlockResponse.serviceUnavailable, times, []) ∧
      (unlock_return_box box now true pOk times).1 = UnlockResponse.ok) ∧
    (∀ (box : Nat) (n1 n2 n3 : Int),
      n2 - n1 < unlock_cooldown_seconds → unlock_cooldown_seconds ≤ n3 - n1 →
      (send_unlock_command box n1 true true []).2 = ["UNLOCK"] ∧
      (send_unlock_command box n2 true true
        (send_unlock_command box n1 true true []).1).2 = [] ∧
      (send_unlock_command box n3 true true
        (send_unlock_command box n2 true true
          (send_unlock_command box n1 true true []).1).1).2 = ["UNLOCK"]) := by
  have hsend1 : ∀ (box : Nat) (n : Int),
      send_unlock_command box n true true [] = ([(box, n)], ["UNLOCK"]) := by
    intro box n
    rfl
  refine ⟨?_, ?_, ?_, ?_⟩
  · intro box now c pOk times last hlast hlt
    unfold send_unlock_command
    rw [hlast]
    dsimp only
    rw [if_pos hlt]
  · intro box now pOk times hout
    unfold send_unlock_command
    cases hg : dictGet times box with
    | none => cases pOk <;> rfl
    | some last =>
      dsimp only
      rw [if_neg (not_lt.mpr (hout last hg))]
      cases pOk <;> rfl
  · intro box now pOk times
    exact ⟨rfl, rfl⟩
  · intro box n1 n2 n3 h12 h13
    have hs2 : send_unlock_command box n2 true true [(box, n1)] = ([(box, n1)], []) := by
      unfold send_unlock_command
      have hg : dictGet [(box, n1)] box = some n1 := by simp [dictGet]
      rw [hg]
      dsimp only
      rw [if_pos h12]
    have hs3 : send_unlock_command box n3 true true [(box, n1)] =
        ([(box, n3)], ["UNLOCK"]) := by
      unfold send_unlock_command
      have hg : dictGet [(box, n1)] box = some n1 := by simp [dictGet]
      rw [hg]
      dsimp only
      rw [if_neg (not_lt.mpr h13)]
      simp [dictSet]
    rw [hsend1 box n1]
    dsimp only
    rw [hs2]
    dsimp only
    rw [hs3]
    exact ⟨rfl, rfl, rfl⟩

/-- C7 witness: the amended statement at concrete inputs (calls at times
0, 3 and 5 with a 5-second window). -/
theorem C7_cooldown_suppression_witness :
    send_unlock_command 1 3 true true [(1, (0 : Int))] = ([(1, (0 : Int))], []) ∧
    send_unlock_command 1 7 true true [(1, (0 : Int))]
      = (dictSet [(1, (0 : Int))] 1 7, ["UNLOCK"]) ∧
    unlock_return_box 1 0 false true [] = (UnlockResponse.serviceUnavailable, [], []) ∧
    (send_unlock_command 1 0 true true []).2 = ["UNLOCK"] ∧
    (send_unlock_command 1 3 true true (send_unlock_command 1 0 true true []).1).2 = [] ∧
    (send_unlock_command 1 5 true true
      (send_unlock_command 1 3 true true
        (send_unlock_command 1 0 true true []).1).1).2 = ["UNLOCK"] := by
  have h := C7_cooldown_suppression
  have hseq := h.2.2.2 1 0 3 5 (by decide) (by decide)
  have hout : ∀ last : Int, dictGet [(1, (0 : Int))] 1 = some last →
      unlock_cooldown_seconds ≤ 7 - last := by
    intro last hlast
    simp [dictGet] at hlast
    subst hlast
    decide
  have hb := h.2.1 1 7 true [(1, (0 : Int))] hout
  exact ⟨h.1 1 3 true true [(1, (0 : Int))] 0 (by simp [dictGet]) (by decide),
    by simpa using hb, (h.2.2.1 1 0 true []).1, hseq.1, hseq.2.1, hseq.2.2⟩

/-- C9: an inbound scan message whose topic device index fails to parse
as an integer, or whose payload is not valid JSON, or whose decoded
payload is neither a bare array nor an object carrying the known
`"Return"` wrapping key, is dropped (flag true, warning logged) without
mutating the session map and without any finalization call. -/
theorem C9_malformed_messages_dropped (boxIdOpt : Option Nat)
    (payloadOpt : Option Json) (now : Int) (ss : Sessions)
    (h : boxIdOpt = none ∨ payloadOpt = none ∨
      ∃ j, payloadOpt = some j ∧ extractEpcTags j = none) :
    (handle_return_message boxIdOpt payloadOpt now ss).1.sessions = ss ∧
    (handle_return_message boxIdOpt payloadOpt now ss).1.fins = [] ∧
    (handle_return_message boxIdOpt payloadOpt now ss).2 = true := by
  rcases h with h | h | ⟨j, hj, hx⟩
  · subst h
    exact ⟨rfl, rfl, rfl⟩
  · cases boxIdOpt with
    | none => exact ⟨rfl, rfl, rfl⟩
    | some box =>
      subst h
      exact ⟨rfl, rfl, rfl⟩
  · cases boxIdOpt with
    | none => exact ⟨rfl, rfl, rfl⟩
    | some box =>
      subst hj
      have hmr : handle_return_message (some box) (some j) now ss
          = (⟨ss, [], []⟩, true) := by
        unfold handle_return_message
        simp only [hx]
      rw [hmr]
      exact ⟨rfl, rfl, rfl⟩

/-- C9 witness: a numeric payload (neither array nor wrapping object) is
dropped without touching an existing session. -/
theorem C9_malformed_messages_dropped_witness :
    (handle_return_message (some 1) (some (Json.num 3)) 0
        [(1, ⟨["E1"], Status.scanning, 0⟩)]).1.sessions
      = [(1, ⟨["E1"], Status.scanning, 0⟩)] ∧
    (handle_return_message (some 1) (some (Json.num 3)) 0
        [(1, ⟨["E1"], Status.scanning, 0⟩)]).1.fins = [] ∧
    (handle_return_message (some 1) (some (Json.num 3)) 0
        [(1, ⟨["E1"], Status.scanning, 0⟩)]).2 = true :=
  C9_malformed_messages_dropped (some 1) (some (Json.num 3)) 0
    [(1, ⟨["E1"], Status.scanning, 0⟩)]
    (Or.inr (Or.inr ⟨Json.num 3, rfl, rfl⟩))

/-- C10: the finalization worker called with an empty tag list performs
no database query at all and returns the store unchanged; with a
non-empty tag list matching no item record it returns the store
unchanged after only the copy lookup — the return-box (location) record
is never looked up and nothing is committed. -/
theorem C10_worker_frame (box : Nat) (tags : List String) (now : Int) (db : DB) :
    process_finalized_return box [] now db = (db, []) ∧
    (matchedCopies db tags = [] →
      (process_finalized_return box tags now db).1 = db ∧
      DbQuery.boxById ∉ (process_finalized_return box tags now db).2 ∧
      DbQuery.commit ∉ (process_finalized_return box tags now db).2) := by
  constructor
  · rfl
  · intro hm
    unfold process_finalized_return
    by_cases ht : tags.isEmpty
    · rw [if_pos ht]
      exact ⟨rfl, by simp, by simp⟩
    · rw [if_neg ht]
      dsimp only
      rw [if_pos (by simp [hm])]
      refine ⟨rfl, by simp, by simp⟩

/-- C10 witness: a store with one non-matching copy row is left
untouched and its return-box table is never consulted. -/
theorem C10_worker_frame_witness :
    process_finalized_return 1 [] 0
        ⟨[⟨1, 1, "E9", "available"⟩], [], [⟨1⟩]⟩
      = (⟨[⟨1, 1, "E9", "available"⟩], [], [⟨1⟩]⟩, []) ∧
    ((process_finalized_return 1 ["E1"] 0
        ⟨[⟨1, 1, "E9", "available"⟩], [], [⟨1⟩]⟩).1
      = ⟨[⟨1, 1, "E9", "available"⟩], [], [⟨1⟩]⟩ ∧
    DbQuery.boxById ∉ (process_finalized_return 1 ["E1"] 0
        ⟨[⟨1, 1, "E9", "available"⟩], [], [⟨1⟩]⟩).2 ∧
    DbQuery.commit ∉ (process_finalized_return 1 ["E1"] 0
        ⟨[⟨1, 1, "E9", "available"⟩], [], [⟨1⟩]⟩).2) :=
  ⟨(C10_worker_frame 1 ["E1"] 0 ⟨[⟨1, 1, "E9", "available"⟩], [], [⟨1⟩]⟩).1,
   (C10_worker_frame 1 ["E1"] 0 ⟨[⟨1, 1, "E9", "available"⟩], [], [⟨1⟩]⟩).2
     (by decide)⟩

/-! ## Loan-closing lemmas for the finalization worker -/

theorem closeFirstActiveLoan_mem_of_not_pred (loans : List Loan) (c : Nat) (now : Int)
    (l : Loan) (hl : l ∈ loans) (h : activeLoanPred c l = false) :
    l ∈ closeFirstActiveLoan loans c now := by
  induction loans with
  | nil => cases hl
  | cons a rest ih =>
    unfold closeFirstActiveLoan
    by_cases hp : activeLoanPred c a
    · rw [if_pos hp]
      rcases List.mem_cons.mp hl with rfl | hl2
      · rw [h] at hp
        cases hp
      · exact List.mem_cons_of_mem _ hl2
    · rw [if_neg hp]
      rcases List.mem_cons.mp hl with rfl | hl2
      · exact List.mem_cons_self _ _
      · exact List.mem_cons_of_mem _ (ih hl2)

theorem closeFirstActiveLoan_closed_mem (loans : List Loan) (c : Nat) (now : Int)
    (l : Loan) (h : findFirstActive loans c = some l) :
    closedLoan l now ∈ closeFirstActiveLoan loans c now := by
  induction loans with
  | nil => cases h
  | cons a rest ih =>
    unfold closeFirstActiveLoan
    unfold findFirstActive at h ih
    by_cases hp : activeLoanPred c a
    · rw [if_pos hp]
      rw [List.find?_cons_of_pos _ hp] at h
      cases h
      exact List.mem_cons_self _ _
    · rw [if_neg hp]
      rw [List.find?_cons_of_neg _ hp] at h
      exact List.mem_cons_of_mem _ (ih h)

theorem closeFirstActiveLoan_of_none (loans : List Loan) (c : Nat) (now : Int)
    (h : findFirstActive loans c = none) :
    closeFirstActiveLoan loans c now = loans := by
  induction loans with
  | nil => rfl
  | cons a rest ih =>
    unfold findFirstActive at h ih
    unfold closeFirstActiveLoan
    by_cases hp : activeLoanPred c a
    · rw [List.find?_cons_of_pos _ hp] at h
      cases h
    · rw [List.find?_cons_of_neg _ hp] at h
      rw [if_neg hp, ih h]

theorem findFirstActive_closeFirstActiveLoan_ne (loans : List Loan) (c c2 : Nat)
    (now : Int) (h : c ≠ c2) :
    findFirstActive (closeFirstActiveLoan loans c now) c2 = findFirstActive loans c2 := by
  induction loans with
  | nil => rfl
  | cons a rest ih =>
    unfold closeFirstActiveLoan
    by_cases hp : activeLoanPred c a
    · rw [if_pos hp]
      have ha : a.copy_id = c := by
        have := hp
        unfold activeLoanPred at this
        simp only [Bool.and_eq_true, beq_iff_eq] at this
        exact this.1
      have hq1 : activeLoanPred c2 a = false := by
        simp [activeLoanPred, ha, h]
      have hq2 : activeLoanPred c2 (closedLoan a now) = false := by
        simp [activeLoanPred, closedLoan, ha, h]
      unfold findFirstActive
      rw [List.find?_cons_of_neg _ (by simp [hq2]),
        List.find?_cons_of_neg _ (by simp [hq1])]
    · rw [if_neg hp]
      unfold findFirstActive at ih ⊢
      by_cases hq : activeLoanPred c2 a
      · rw [List.find?_cons_of_pos _ hq, List.find?_cons_of_pos _ hq]
      · rw [List.find?_cons_of_neg _ hq, List.find?_cons_of_neg _ hq]
        exact ih

theorem closeLoansFor_mem_inactive (ms : List BookCopy) (loans : List Loan)
    (now : Int) (l : Loan) (hl : l ∈ loans) (h : l.status ≠ "active") :
    l ∈ closeLoansFor ms loans now := by
  induction ms generalizing loans with
  | nil => exact hl
  | cons m rest ih =>
    exact ih _ (closeFirstActiveLoan_mem_of_not_pred _ _ _ _ hl
      (by simp [activeLoanPred, h]))

theorem closeLoansFor_mem_other (ms : List BookCopy) (loans : List Loan)
    (now : Int) (l : Loan) (hl : l ∈ loans)
    (h : l.copy_id ∉ ms.map BookCopy.copy_id) :
    l ∈ closeLoansFor ms loans now := by
  induction ms generalizing loans with
  | nil => exact hl
  | cons m rest ih =>
    simp only [List.map_cons, List.mem_cons] at h
    push_neg at h
    exact ih _ (closeFirstActiveLoan_mem_of_not_pred _ _ _ _ hl
      (by simp [activeLoanPred, h.1])) h.2

theorem closeLoansFor_findFirstActive_other (ms : List BookCopy) (loans : List Loan)
    (now : Int) (c2 : Nat) (h : c2 ∉ ms.map BookCopy.copy_id) :
    findFirstActive (closeLoansFor ms loans now) c2 = findFirstActive loans c2 := by
  induction ms generalizing loans with
  | nil => rfl
  | cons m rest ih =>
    simp only [List.map_cons, List.mem_cons] at h
    push_neg at h
    have hstep : closeLoansFor (m :: rest) loans now
        = closeLoansFor rest (closeFirstActiveLoan loans m.copy_id now) now := rfl
    rw [hstep, ih _ h.2,
      findFirstActive_closeFirstActiveLoan_ne _ _ _ _ (Ne.symm h.1)]

theorem closeLoansFor_spec (ms : List BookCopy) (loans : List Loan) (now : Int)
    (c : BookCopy) :
    (ms.map BookCopy.copy_id).Nodup → c ∈ ms →
    (∀ l, findFirstActive loans c.copy_id = some l →
      closedLoan l now ∈ closeLoansFor ms loans now) ∧
    (findFirstActive loans c.copy_id = none →
      ∀ l ∈ loans, l.copy_id = c.copy_id → l ∈ closeLoansFor ms loans now) := by
  induction ms generalizing loans with
  | nil =>
    intro _ hc
    cases hc
  | cons m rest ih =>
    intro hnd hc
    simp only [List.map_cons, List.nodup_cons] at hnd
    have hstep : closeLoansFor (m :: rest) loans now
        = closeLoansFor rest (closeFirstActiveLoan loans m.copy_id now) now := rfl
    rcases List.mem_cons.mp hc with rfl | hc2
    · constructor
      · intro l hf
        rw [hstep]
        exact closeLoansFor_mem_inactive rest _ now _
          (closeFirstActiveLoan_closed_mem loans c.copy_id now l hf)
          (by simp [closedLoan])
      · intro hf l hl hcid
        rw [hstep, closeFirstActiveLoan_of_none _ _ _ hf]
        exact closeLoansFor_mem_other rest loans now l hl (by rw [hcid]; exact hnd.1)
    · have hne : c.copy_id ≠ m.copy_id := by
        intro he
        exact hnd.1 (he ▸ List.mem_map_of_mem BookCopy.copy_id hc2)
      constructor
      · intro l hf
        rw [hstep]
        refine (ih _ hnd.2 hc2).1 l ?_
        rw [findFirstActive_closeFirstActiveLoan_ne _ _ _ _ (Ne.symm hne)]
        exact hf
      · intro hf l hl hcid
        rw [hstep]
        refine (ih _ hnd.2 hc2).2 ?_ l ?_ hcid
        · rw [findFirstActive_closeFirstActiveLoan_ne _ _ _ _ (Ne.symm hne)]
          exact hf
        · exact closeFirstActiveLoan_mem_of_not_pred _ _ _ _ hl
            (by simp [activeLoanPred, hcid, hne])

/-- C8: when the return-box row exists and at least one tag matches a
copy row (copy ids unique, as the schema's primary key guarantees),
finalization marks every matched copy `"returned"` and leaves unmatched
rows untouched (unmatched tags are skipped, not fatal); for each matched
copy its first active loan, if any, gets its return timestamp set, its
status closed and its fine cleared to zero, while a copy without an
active loan keeps its loan rows unchanged (not an error); and the whole
update is committed as exactly one transaction. -/
theorem C8_finalize_semantics (box : Nat) (tags : List String) (now : Int) (db : DB)
    (hbox : (db.boxes.find? (fun b => b.return_box_id == box)).isSome = true)
    (hmatch : matchedCopies db tags ≠ [])
    (hnd : (db.copies.map BookCopy.copy_id).Nodup) :
    (∀ c ∈ db.copies,
      (if tags.contains c.book_epc then ({ c with status := "returned" } : BookCopy)
        else c) ∈ (process_finalized_return box tags now db).1.copies) ∧
    (∀ c ∈ matchedCopies db tags,
      (∀ l, findFirstActive db.loans c.copy_id = some l →
        closedLoan l now ∈ (process_finalized_return box tags now db).1.loans) ∧
      (findFirstActive db.loans c.copy_id = none →
        ∀ l ∈ db.loans, l.copy_id = c.copy_id →
          l ∈ (process_finalized_return box tags now db).1.loans)) ∧
    (process_finalized_return box tags now db).2.count DbQuery.commit = 1 := by
  have htags : ¬(tags.isEmpty = true) := by
    intro h
    rw [List.isEmpty_iff] at h
    subst h
    exact hmatch (by simp [matchedCopies])
  have hm2 : ¬((matchedCopies db tags).isEmpty = true) := by
    simpa [List.isEmpty_iff] using hmatch
  have hb2 : ¬((db.boxes.find? (fun b => b.return_box_id == box)).isNone = true) := by
    cases hfind : db.boxes.find? (fun b => b.return_box_id == box) with
    | none =>
      rw [hfind] at hbox
      cases hbox
    | some b => simp
  have hred : process_finalized_return box tags now db =
      ({ db with
          copies := db.copies.map (fun c =>
            if tags.contains c.book_epc then { c with status := "returned" } else c),
          loans := closeLoansFor (matchedCopies db tags) db.loans now },
        [DbQuery.copiesByEpc, DbQuery.boxById]
          ++ (matchedCopies db tags).map (fun c => DbQuery.loanByCopy c.copy_id)
          ++ [DbQuery.commit]) := by
    unfold process_finalized_return
    rw [if_neg htags]
    dsimp only
    rw [if_neg hm2, if_neg hb2]
  rw [hred]
  refine ⟨?_, ?_, ?_⟩
  · intro c hc
    exact List.mem_map_of_mem _ hc
  · intro c hc
    have hsub : List.Sublist (matchedCopies db tags) db.copies := by
      unfold matchedCopies
      exact List.filter_sublist _
    have hndm : ((matchedCopies db tags).map BookCopy.copy_id).Nodup :=
      List.Nodup.sublist (List.Sublist.map _ hsub) hnd
    exact closeLoansFor_spec (matchedCopies db tags) db.loans now c hndm hc
  · have hnc : ((matchedCopies db tags).map
        (fun c => DbQuery.loanByCopy c.copy_id)).count DbQuery.commit = 0 :=
      List.count_eq_zero.mpr (by simp)
    simp [List.count_append, List.count_cons, hnc]

/-- C8 witness: box 5 finalizes tag set ["E1", "EX"] where only "E1"
matches a copy; the matched copy is returned, its active loan closed
with fine cleared, the unmatched copy untouched, one commit issued. -/
theorem C8_finalize_semantics_witness :
    (∀ c ∈ (⟨[⟨1, 1, "E1", "borrowed"⟩, ⟨2, 1, "E2", "available"⟩],
        [⟨10, 1, "active", none, 500⟩], [⟨5⟩]⟩ : DB).copies,
      (if List.contains ["E1", "EX"] c.book_epc then
          ({ c with status := "returned" } : BookCopy) else c)
        ∈ (process_finalized_return 5 ["E1", "EX"] 100
            ⟨[⟨1, 1, "E1", "borrowed"⟩, ⟨2, 1, "E2", "available"⟩],
              [⟨10, 1, "active", none, 500⟩], [⟨5⟩]⟩).1.copies) ∧
    (∀ c ∈ matchedCopies
        ⟨[⟨1, 1, "E1", "borrowed"⟩, ⟨2, 1, "E2", "available"⟩],
          [⟨10, 1, "active", none, 500⟩], [⟨5⟩]⟩ ["E1", "EX"],
      (∀ l, findFirstActive [⟨10, 1, "active", none, 500⟩] c.copy_id = some l →
        closedLoan l 100 ∈ (process_finalized_return 5 ["E1", "EX"] 100
            ⟨[⟨1, 1, "E1", "borrowed"⟩, ⟨2, 1, "E2", "available"⟩],
              [⟨10, 1, "active", none, 500⟩], [⟨5⟩]⟩).1.loans) ∧
      (findFirstActive [⟨10, 1, "active", none, 500⟩] c.copy_id = none →
        ∀ l ∈ [(⟨10, 1, "active", none, 500⟩ : Loan)], l.copy_id = c.copy_id →
          l ∈ (process_finalized_return 5 ["E1", "EX"] 100
            ⟨[⟨1, 1, "E1", "borrowed"⟩, ⟨2, 1, "E2", "available"⟩],
              [⟨10, 1, "active", none, 500⟩], [⟨5⟩]⟩).1.loans)) ∧
    (process_finalized_return 5 ["E1", "EX"] 100
        ⟨[⟨1, 1, "E1", "borrowed"⟩, ⟨2, 1, "E2", "available"⟩],
          [⟨10, 1, "active", none, 500⟩], [⟨5⟩]⟩).2.count DbQuery.commit = 1 :=
  C8_finalize_semantics 5 ["E1", "EX"] 100
    ⟨[⟨1, 1, "E1", "borrowed"⟩, ⟨2, 1, "E2", "available"⟩],
      [⟨10, 1, "active", none, 500⟩], [⟨5⟩]⟩
    (by decide) (by decide) (by decide)

end LibReturn
